import Mathlib

/-!
Verification of the uplift-report core (`lib/helpers.py`) against its
natural-language specification.

The embedding below translates the data model and the operations of
`lib.helpers.Helpers` into Lean:

* pandas dataframes become lists of records;
* machine floats become exact rationals (`ℚ`);
* `pandas.sort_values` is modelled as a stable sort on the relevant keys
  (tie order among equal keys is implementation-defined in pandas; all
  counterexamples below are chosen so that they do not depend on it);
* raising a Python exception becomes `Except.error` carrying the
  exception name;
* the randomness of `np.random.choice` is modelled by an explicit
  index-picking function, so every resample has the sample's size and
  draws (with replacement) from the sample by construction.

Notes recorded while translating the source:

* `Helpers._uplift` fetches `grouped_users.get_group(TEST)` before testing
  the group size; pandas `get_group` raises `KeyError` for an absent
  group, so the `if not test_group_size` / `if not control_group_size`
  warning branches of the source are unreachable and are modelled as the
  dead branches they are.
* `Helpers._uplift` assigns `uplift_l_bound` / `uplift_u_bound` only
  inside `if control_cvr > 0:`, so building the output mapping raises
  `NameError` whenever `control_cvr == 0`.
* the CI column labels of the output mapping interpolate a module-level
  name `CONFIDENCE_LEVEL` that `lib/helpers.py` neither defines nor
  imports; labels are presentation only and are not part of this value
  model (the record field names below play their role).
* `Helpers._drop_duplicates_in_attributions` applies `pd.to_datetime` to
  the integer-typed `ts` column, whose values are epoch seconds after
  `_CSVHelpers._improve_types`; `pd.to_datetime` interprets plain
  integers at nanosecond resolution, which the model reproduces.
-/

/-- The two mark groups (TEST and CONTROL labels of `lib.const`). -/
inductive ABGroup where
  | test : ABGroup
  | control : ABGroup
deriving DecidableEq, Repr

/-- One row of a marks-and-spend dataframe
(columns loaded by `_CSVHelpers` for `CSV_SOURCE_MARKS_AND_SPEND`).
`ts` is an epoch-seconds integer (`_improve_types` casts it to int32). -/
structure MSRow where
  ts : Int
  user_id : Int
  ab_test_group : ABGroup
  campaign_id : Int
  cost_eur : ℚ
  event_type : String
deriving DecidableEq, Repr

/-- One row of an attributions dataframe after `_extract_revenue_events`
(columns `ts`, `user_id`, `revenue_eur`; `partner_event` already dropped). -/
structure AttribRow where
  ts : Int
  user_id : Int
  revenue_eur : ℚ
deriving DecidableEq, Repr

/-- One row of the per-user dataframe produced by `_merge_into_users_df`. -/
structure UserAggregate where
  user_id : Int
  ab_test_group : ABGroup
  conversion_count : Int
  revenue_eur : ℚ
deriving DecidableEq, Repr

/-- Stable insertion of `x` into `l`: `x` is placed before the first
element `y` with `le x y`.  Models the placement of one row by a stable
`sort_values`. -/
def insortBy (le : α → α → Bool) (x : α) : List α → List α
  | [] => [x]
  | y :: ys => if le x y then x :: y :: ys else y :: insortBy le x ys

/-- Stable sort by the boolean comparison `le` (ties keep input order). -/
def sortBy (le : α → α → Bool) : List α → List α
  | [] => []
  | x :: xs => insortBy le x (sortBy le xs)

/-- Keep-first deduplication by a key, with an accumulator of keys already
seen.  Models `DataFrame.drop_duplicates` (keep the first occurrence). -/
def dedupBy (key : α → β) [DecidableEq β] (seen : List β) : List α → List α
  | [] => []
  | x :: xs =>
      if key x ∈ seen then dedupBy key seen xs
      else x :: dedupBy key (key x :: seen) xs

/-- Comparison used by `_marked`: `sort_values('ts')`. -/
def leTs (a b : MSRow) : Bool := a.ts ≤ b.ts

/-- Row-level content of `Helpers._marked` on a nonempty dataframe:
filter to `event_type == 'mark'`, sort by `ts`, deduplicate by `user_id`
keeping the first (earliest) row.  (The source also drops the
`event_type` column; column bookkeeping is modelled by `MarksTable`.) -/
def markedRows (df : List MSRow) : List MSRow :=
  dedupBy MSRow.user_id []
    (sortBy leTs (df.filter (fun r => r.event_type == "mark")))

/-- A marks dataframe together with the presence of its `event_type`
column (the one column `_marked` drops from its output). -/
structure MarksTable where
  hasEventType : Bool
  rows : List MSRow
deriving DecidableEq, Repr

/-- Full `Helpers._marked`: an empty dataframe is returned unchanged;
otherwise the `event_type` column is accessed (an `AttributeError` if it
was already dropped) and the rows are filtered, sorted and deduplicated,
and the `event_type` column is dropped. -/
def markedTable (t : MarksTable) : Except String MarksTable :=
  if t.rows = [] then .ok t
  else if t.hasEventType then .ok ⟨false, markedRows t.rows⟩
  else .error "AttributeError: event_type"

/-- Lexicographic comparison on `(user_id, revenue_eur)` used by
`_drop_duplicates_in_attributions` (`sort_values(['user_id', 'revenue_eur'])`;
`ts` is not a sort key). -/
def leUserRevenue (a b : AttribRow) : Bool :=
  a.user_id < b.user_id || (a.user_id == b.user_id && a.revenue_eur ≤ b.revenue_eur)

/-- Adjacent-row filter of `_drop_duplicates_in_attributions`: a row is
kept iff its user or revenue differs from the previous row, or the
datetime difference to the previous row exceeds `maxTimedeltaNs`.
The integer `ts` values are epoch seconds, but `pd.to_datetime` reads
them at nanosecond resolution, hence the raw difference is compared with
the timedelta expressed in nanoseconds. -/
def dropDupKeep (maxTimedeltaNs : Int) : List AttribRow → List AttribRow
  | [] => []
  | x :: xs => x :: dropDupKeepNext maxTimedeltaNs x xs
where
  dropDupKeepNext (maxTimedeltaNs : Int) (prev : AttribRow) :
      List AttribRow → List AttribRow
    | [] => []
    | x :: xs =>
        if prev.user_id ≠ x.user_id ∨ prev.revenue_eur ≠ x.revenue_eur ∨
            x.ts - prev.ts > maxTimedeltaNs then
          x :: dropDupKeepNext maxTimedeltaNs x xs
        else
          dropDupKeepNext maxTimedeltaNs x xs

/-- `Helpers._drop_duplicates_in_attributions`: sort by
`(user_id, revenue_eur)`, then drop every row whose predecessor has the
same user and revenue and lies within `maxTimedeltaNs`. -/
def dropDuplicatesInAttributions (df : List AttribRow) (maxTimedeltaNs : Int) :
    List AttribRow :=
  dropDupKeep maxTimedeltaNs (sortBy leUserRevenue df)

/-- The call made by `load_attribution_data`:
`max_timedelta = pd.Timedelta('1 minute')`, i.e. 60·10⁹ ns. -/
def dropDuplicatesOneMinute (df : List AttribRow) : List AttribRow :=
  dropDuplicatesInAttributions df (60 * 1000000000)

/-- One row of the intermediate dataframe of `_merge_into_users_df` after
the column projection: left-join row with its conversion/revenue
contribution already gated by `ts_x < ts_y` (an attribution earlier than
or simultaneous with the mark contributes nothing; a marked user without
attributions contributes a single all-zero row). -/
structure MergedRow where
  user_id : Int
  ab_test_group : ABGroup
  conversion_count : Int
  revenue_eur : ℚ
deriving DecidableEq, Repr

/-- The merged rows one mark row contributes to the left join
`pd.merge(marks_df, attributions_df, on='user_id', how='left')`, with the
`conversion_count` / `revenue_eur` computations of `_merge_into_users_df`
(the lines using `~ts_y.isnull()` and `ts_x < ts_y`) already applied:
a mark without matching attributions contributes one all-zero row, and a
matched attribution contributes only when it is strictly later than the
mark. -/
def markBlock (attribs : List AttribRow) (m : MSRow) : List MergedRow :=
  match attribs.filter (fun a => a.user_id == m.user_id) with
  | [] => [⟨m.user_id, m.ab_test_group, 0, 0⟩]
  | matches_ => matches_.map (fun a =>
      ⟨m.user_id, m.ab_test_group,
        if m.ts < a.ts then 1 else 0,
        if m.ts < a.ts then a.revenue_eur else 0⟩)

/-- The full left join: every mark row contributes its block, in order. -/
def mergedRows (marks : List MSRow) (attribs : List AttribRow) : List MergedRow :=
  (marks.map (markBlock attribs)).flatten

/-- Integer comparison for the sorted group keys of
`merged_df.groupby('user_id')` (pandas sorts group keys by default). -/
def leInt (a b : Int) : Bool := a ≤ b

/-- ABGroup of the first row of a user's merged block
(`'ab_test_group': 'first'` aggregation). -/
def firstABGroup (rows : List MergedRow) : ABGroup :=
  match rows with
  | [] => ABGroup.test
  | r :: _ => r.ab_test_group

/-- The aggregation `groupby('user_id').agg(...)` applies to one user:
`ab_test_group` by `first`, `conversion_count` and `revenue_eur` by
`sum`, over the user's merged rows. -/
def userAggregateOf (merged : List MergedRow) (u : Int) : UserAggregate :=
  let block := merged.filter (fun r => r.user_id == u)
  { user_id := u
    ab_test_group := firstABGroup block
    conversion_count := (block.map MergedRow.conversion_count).sum
    revenue_eur := (block.map MergedRow.revenue_eur).sum }

/-- `Helpers._merge_into_users_df`: one output row per distinct
`user_id` of the merged dataframe (all of them come from `marks`; pandas
`groupby` sorts the group keys). -/
def usersDf (marks : List MSRow) (attribs : List AttribRow) : List UserAggregate :=
  let merged := mergedRows marks attribs
  (sortBy leInt (dedupBy id [] (merged.map MergedRow.user_id))).map
    (userAggregateOf merged)

/-- `Helpers._calculate_ad_spend`: total `cost_eur` over test-group
`buying_conversion` events, scaled from micro-currency. -/
def calculateAdSpend (df : List MSRow) : ℚ :=
  ((df.filter (fun r =>
    r.event_type == "buying_conversion" && r.ab_test_group == ABGroup.test)).map
      (fun r => r.cost_eur)).sum / 1000000

/-- Configuration held by a `Helpers` instance: the confidence level and
the configured (pre-adjustment) bootstrap size. -/
structure Config where
  confidence_level : ℚ
  bootstrap_size_configured : Nat
deriving DecidableEq, Repr

/-- Effective bootstrap size fixed in `Helpers.__init__`: one less than
the configured value when the configured value is divisible by 10,
otherwise the configured value itself. -/
def effectiveBootstrapSize (bs : Nat) : Nat :=
  if bs % 10 == 0 then bs - 1 else bs

/-- One resample of `np.random.choice(sample, len(sample), replace=True)`
for resample number `i`: the same length as the sample, each slot filled
with a sample element selected by the picking function. -/
def resample (sample : List ℚ) (pick : Nat → Nat → Nat) (i : Nat) : List ℚ :=
  (List.range sample.length).map (fun j => sample.getD (pick i j % sample.length) 0)

/-- Mean of a list (`ndarray.mean()`), as a rational. -/
def listMean (l : List ℚ) : ℚ := l.sum / l.length

/-- Comparison for `list.sort()` on the bootstrapped means. -/
def leRat (a b : ℚ) : Bool := a ≤ b

/-- The ascending list of bootstrapped resample means of
`_bootstrap_mean_ci` (one mean per resample, then `sort()`). -/
def bootstrapMeans (cfg : Config) (sample : List ℚ) (pick : Nat → Nat → Nat) :
    List ℚ :=
  sortBy leRat ((List.range (effectiveBootstrapSize cfg.bootstrap_size_configured)).map
    (fun i => listMean (resample sample pick i)))

/-- Lower quantile index of `_bootstrap_mean_ci`:
`int(((1 - confidence_level) / 2) * (bootstrap_size + 1))`.
For confidence levels in (0,1) the value is nonnegative, so Python
`int()` truncation coincides with the floor. -/
def lowerQuantileIdx (cl : ℚ) (n : Nat) : Int :=
  ⌊((1 - cl) / 2) * ((n : ℚ) + 1)⌋

/-- Upper quantile index of `_bootstrap_mean_ci`:
`int(((1 - confidence_level) / 2 + confidence_level) * (bootstrap_size + 1))`. -/
def upperQuantileIdx (cl : ℚ) (n : Nat) : Int :=
  ⌊((1 - cl) / 2 + cl) * ((n : ℚ) + 1)⌋

/-- `Helpers._bootstrap_mean_ci`: read the two quantile indices off the
sorted means; an index beyond the end of the list is an `IndexError`. -/
def bootstrapMeanCI (cfg : Config) (sample : List ℚ) (pick : Nat → Nat → Nat) :
    Except String (ℚ × ℚ) :=
  let n := effectiveBootstrapSize cfg.bootstrap_size_configured
  let means := bootstrapMeans cfg sample pick
  match means.get? (lowerQuantileIdx cfg.confidence_level n).toNat,
      means.get? (upperQuantileIdx cfg.confidence_level n).toNat with
  | some lo, some hi => .ok (lo, hi)
  | _, _ => .error "IndexError: list index out of range"

/-- Binomial cumulative distribution function at `k` for `n` trials with
success probability `p` (exact rational arithmetic). -/
def binomCdf (n : Nat) (p : ℚ) (k : Nat) : ℚ :=
  ((List.range (k + 1)).map (fun i => (n.choose i : ℚ) * p ^ i * (1 - p) ^ (n - i))).sum

/-- `scipy.stats.binom.ppf(q, n, p)` for the arguments `_uplift` uses:
the smallest `k` with `binomCdf n p k ≥ q` (and `-1` for `q ≤ 0`,
matching scipy's convention for discrete distributions). -/
def binomPpf (q : ℚ) (n : Nat) (p : ℚ) : ℚ :=
  if q ≤ 0 then -1
  else
    match (List.range (n + 1)).find? (fun k => q ≤ binomCdf n p k) with
    | some k => (k : ℚ)
    | none => (n : ℚ)

/-- A report cell that is either a number or one of the descriptive
sentinel strings `_uplift` substitutes for negative estimates. -/
abbrev KPIValue := ℚ ⊕ String

/-- Sentinel substituted for a negative cost-per-incremental-converter. -/
def negConvertersSentinel : String := "Negative incremental converters estimate"

/-- Sentinel substituted for a negative iCPA. -/
def negConversionsSentinel : String := "Negative incremental conversions estimate"

/-- Sentinel substituted for CI bounds when the upper bound is negative
(the source misspells interpreted). -/
def ciSentinel : String := "CI contains negative value, cannot be intepreted"

/-- The numeric content of the `dataframe_dict` built at the end of
`Helpers._uplift`, one field per dict entry, in source order.  The CI
column labels (which interpolate the undefined `CONFIDENCE_LEVEL`) are
replaced by field names. -/
structure UpliftRow where
  ad_spend : ℚ
  total_revenue : ℚ
  control_group_size : Nat
  test_group_size : Nat
  ratio_test_control : ℚ
  control_converters : ℚ
  scaled_control_converters : ℚ
  test_converters : ℚ
  incremental_converters_estimate : ℚ
  incremental_converters_l_bound : ℚ
  incremental_converters_u_bound : ℚ
  cost_per_incremental_converter_estimate : KPIValue
  cost_per_incremental_converter_l_bound : KPIValue
  cost_per_incremental_converter_u_bound : KPIValue
  control_conversions : ℚ
  scaled_control_conversions : ℚ
  test_conversions : ℚ
  incremental_conversions_estimate : ℚ
  incremental_conversions_l_bound : ℚ
  incremental_conversions_u_bound : ℚ
  icpa_estimate : KPIValue
  icpa_l_bound : KPIValue
  icpa_u_bound : KPIValue
  control_cvr : ℚ
  test_cvr : ℚ
  cvr_uplift_estimate : ℚ
  cvr_uplift_l_bound : ℚ
  cvr_uplift_u_bound : ℚ
  control_revenue : ℚ
  scaled_control_revenue : ℚ
  test_revenue : ℚ
  incremental_revenue_estimate : ℚ
  incremental_revenue_l_bound : ℚ
  incremental_revenue_u_bound : ℚ
  iroas_estimate : ℚ
  iroas_l_bound : ℚ
  iroas_u_bound : ℚ
  rev_per_conversion_control : ℚ
  rev_per_conversion_test : ℚ

/-- The KPI arithmetic of `Helpers._uplift` (lines between the group
extraction and the `dataframe_dict`), given the slice's ad spend, the
per-group user rows, and the two bootstrap confidence intervals already
drawn.  Building the output raises `NameError` when `control_cvr == 0`,
because the source assigns `uplift_l_bound` / `uplift_u_bound` only under
`if control_cvr > 0:`. -/
def mkUpliftRow (alpha adSpend : ℚ) (testUsers controlUsers : List UserAggregate)
    (convCI revCI : ℚ × ℚ) : Except String UpliftRow :=
  let test_group_size := testUsers.length
  let control_group_size := controlUsers.length
  let test_revenue_micros := (testUsers.map (fun u => u.revenue_eur)).sum
  let test_conversions := (testUsers.map (fun u => u.conversion_count)).sum
  let test_converters := (testUsers.filter (fun u => 0 < u.conversion_count)).length
  let control_revenue_micros := (controlUsers.map (fun u => u.revenue_eur)).sum
  let control_conversions := (controlUsers.map (fun u => u.conversion_count)).sum
  let control_converters :=
    (controlUsers.filter (fun u => 0 < u.conversion_count)).length
  let ratio : ℚ := (test_group_size : ℚ) / (control_group_size : ℚ)
  let scaled_control_converters : ℚ := (control_converters : ℚ) * ratio
  let p_control : ℚ := (control_converters : ℚ) / (control_group_size : ℚ)
  let no_treat_converters_l_bound :=
    binomPpf ((1 - alpha) / 2) control_group_size p_control
  let no_treat_converters_u_bound :=
    binomPpf ((1 - alpha) / 2 + alpha) control_group_size p_control
  let incremental_converters_estimate : ℚ :=
    (test_converters : ℚ) - (control_converters : ℚ) * ratio
  let incremental_converters_l_bound : ℚ :=
    (test_converters : ℚ) - no_treat_converters_u_bound * ratio
  let incremental_converters_u_bound : ℚ :=
    (test_converters : ℚ) - no_treat_converters_l_bound * ratio
  let cost_per_incremental_converter_estimate : ℚ :=
    adSpend / incremental_converters_estimate
  let cost_per_incremental_converter_l_bound : ℚ :=
    adSpend / incremental_converters_u_bound
  let cost_per_incremental_converter_u_bound : ℚ :=
    adSpend / incremental_converters_l_bound
  let costEstimateCell : KPIValue :=
    if cost_per_incremental_converter_estimate < 0 then .inr negConvertersSentinel
    else .inl cost_per_incremental_converter_estimate
  let costBoundCells : KPIValue × KPIValue :=
    if cost_per_incremental_converter_u_bound < 0 then
      (.inr ciSentinel, .inr ciSentinel)
    else
      (.inl cost_per_incremental_converter_l_bound,
       .inl cost_per_incremental_converter_u_bound)
  let scaled_control_conversions : ℚ := (control_conversions : ℚ) * ratio
  let mean_no_treat_conversions_l_bound := convCI.1
  let mean_no_treat_conversions_u_bound := convCI.2
  let scaled_no_treat_conversions_l_bound : ℚ :=
    mean_no_treat_conversions_l_bound * (control_group_size : ℚ) * ratio
  let scaled_no_treat_conversions_u_bound : ℚ :=
    mean_no_treat_conversions_u_bound * (control_group_size : ℚ) * ratio
  let incremental_conversions_estimate : ℚ :=
    (test_conversions : ℚ) - scaled_control_conversions
  let incremental_conversions_l_bound : ℚ :=
    (test_conversions : ℚ) - scaled_no_treat_conversions_u_bound
  let incremental_conversions_u_bound : ℚ :=
    (test_conversions : ℚ) - scaled_no_treat_conversions_l_bound
  let icpa_estimate : ℚ := adSpend / incremental_conversions_estimate
  let icpa_l_bound : ℚ := adSpend / incremental_conversions_u_bound
  let icpa_u_bound : ℚ := adSpend / incremental_conversions_l_bound
  let icpaEstimateCell : KPIValue :=
    if icpa_estimate < 0 then .inr negConversionsSentinel else .inl icpa_estimate
  let icpaBoundCells : KPIValue × KPIValue :=
    if icpa_u_bound < 0 then (.inr ciSentinel, .inr ciSentinel)
    else (.inl icpa_l_bound, .inl icpa_u_bound)
  let no_treat_cvr_l_bound : ℚ :=
    scaled_no_treat_conversions_l_bound / (test_group_size : ℚ)
  let no_treat_cvr_u_bound : ℚ :=
    scaled_no_treat_conversions_u_bound / (test_group_size : ℚ)
  let test_cvr : ℚ := (test_conversions : ℚ) / (test_group_size : ℚ)
  let control_cvr : ℚ := (control_conversions : ℚ) / (control_group_size : ℚ)
  let cvr_uplift_estimate : ℚ :=
    if 0 < control_cvr then test_cvr / control_cvr - 1 else 0
  let test_revenue : ℚ := test_revenue_micros / 1000000
  let control_revenue : ℚ := control_revenue_micros / 1000000
  let scaled_control_revenue : ℚ := control_revenue * ratio
  let mean_no_treat_revenue_micro_l_bound := revCI.1
  let mean_no_treat_revenue_micro_u_bound := revCI.2
  let scaled_no_treat_revenue_l_bound : ℚ :=
    mean_no_treat_revenue_micro_l_bound * (control_group_size : ℚ) * ratio / 1000000
  let scaled_no_treat_revenue_u_bound : ℚ :=
    mean_no_treat_revenue_micro_u_bound * (control_group_size : ℚ) * ratio / 1000000
  let incremental_revenue_estimate : ℚ := test_revenue - scaled_control_revenue
  let incremental_revenue_l_bound : ℚ :=
    test_revenue - scaled_no_treat_revenue_u_bound
  let incremental_revenue_u_bound : ℚ :=
    test_revenue - scaled_no_treat_revenue_l_bound
  let iroas_estimate : ℚ := incremental_revenue_estimate / adSpend
  let iroas_l_bound : ℚ := incremental_revenue_l_bound / adSpend
  let iroas_u_bound : ℚ := incremental_revenue_u_bound / adSpend
  let rev_per_conversion_test : ℚ :=
    if 0 < test_conversions then test_revenue / (test_conversions : ℚ) else 0
  let rev_per_conversion_control : ℚ :=
    if 0 < control_conversions then control_revenue / (control_conversions : ℚ) else 0
  if 0 < control_cvr then
    .ok
      { ad_spend := adSpend
        total_revenue := test_revenue + control_revenue
        control_group_size := control_group_size
        test_group_size := test_group_size
        ratio_test_control := ratio
        control_converters := (control_converters : ℚ)
        scaled_control_converters := scaled_control_converters
        test_converters := (test_converters : ℚ)
        incremental_converters_estimate := incremental_converters_estimate
        incremental_converters_l_bound := incremental_converters_l_bound
        incremental_converters_u_bound := incremental_converters_u_bound
        cost_per_incremental_converter_estimate := costEstimateCell
        cost_per_incremental_converter_l_bound := costBoundCells.1
        cost_per_incremental_converter_u_bound := costBoundCells.2
        control_conversions := (control_conversions : ℚ)
        scaled_control_conversions := scaled_control_conversions
        test_conversions := (test_conversions : ℚ)
        incremental_conversions_estimate := incremental_conversions_estimate
        incremental_conversions_l_bound := incremental_conversions_l_bound
        incremental_conversions_u_bound := incremental_conversions_u_bound
        icpa_estimate := icpaEstimateCell
        icpa_l_bound := icpaBoundCells.1
        icpa_u_bound := icpaBoundCells.2
        control_cvr := control_cvr
        test_cvr := test_cvr
        cvr_uplift_estimate := cvr_uplift_estimate
        cvr_uplift_l_bound := test_cvr / no_treat_cvr_u_bound - 1
        cvr_uplift_u_bound := test_cvr / no_treat_cvr_l_bound - 1
        control_revenue := control_revenue
        scaled_control_revenue := scaled_control_revenue
        test_revenue := test_revenue
        incremental_revenue_estimate := incremental_revenue_estimate
        incremental_revenue_l_bound := incremental_revenue_l_bound
        incremental_revenue_u_bound := incremental_revenue_u_bound
        iroas_estimate := iroas_estimate
        iroas_l_bound := iroas_l_bound
        iroas_u_bound := iroas_u_bound
        rev_per_conversion_control := rev_per_conversion_control
        rev_per_conversion_test := rev_per_conversion_test }
  else .error "NameError: uplift_l_bound"

/-- `Helpers._uplift` for one slice: extract marks, compute ad spend,
merge into per-user rows, split by group (`get_group` raises `KeyError`
on a missing group, making the subsequent zero-size checks dead code),
bootstrap the two control samples, and assemble the row.  `Except.error`
models a raised exception, `Option.none` the skip-with-warning path. -/
def upliftSlice (cfg : Config) (pickConv pickRev : Nat → Nat → Nat)
    (msdf : List MSRow) (attribs : List AttribRow) :
    Except String (Option UpliftRow) :=
  let marksDf := markedRows msdf
  let adSpend := calculateAdSpend msdf
  let users := usersDf marksDf attribs
  let testUsers := users.filter (fun u => u.ab_test_group == ABGroup.test)
  if testUsers.isEmpty then .error "KeyError: test"
  else if testUsers.length == 0 then .ok none
  else
    let controlUsers := users.filter (fun u => u.ab_test_group == ABGroup.control)
    if controlUsers.isEmpty then .error "KeyError: control"
    else if controlUsers.length == 0 then .ok none
    else
      match bootstrapMeanCI cfg
          (controlUsers.map (fun u => (u.conversion_count : ℚ))) pickConv with
      | .error e => .error e
      | .ok convCI =>
          match bootstrapMeanCI cfg
              (controlUsers.map (fun u => u.revenue_eur)) pickRev with
          | .error e => .error e
          | .ok revCI =>
              (mkUpliftRow cfg.confidence_level adSpend testUsers controlUsers
                convCI revCI).map some

/-- The assembled report: the total column plus one named column per
group or campaign slice (a `none` column is a skipped slice). -/
structure ReportTable where
  total : UpliftRow
  columns : List (String × Option UpliftRow)

/-- `Helpers.uplift_report`: the total slice first (`none` short-circuits
the whole report), then one slice per named campaign group, then — when
`per_campaign_results` is set — one slice per distinct campaign id.  An
exception in any slice propagates and aborts the report. -/
def upliftReport (cfg : Config) (pickConv pickRev : Nat → Nat → Nat)
    (msdf : List MSRow) (attribs : List AttribRow)
    (groups : List (String × List Int)) (perCampaignResults : Bool) :
    Except String (Option ReportTable) := do
  let total ← upliftSlice cfg pickConv pickRev msdf attribs
  match total with
  | none => pure none
  | some t => do
      let groupCols ← groups.mapM (fun g => do
        let r ← upliftSlice cfg pickConv pickRev
          (msdf.filter (fun e => g.2.contains e.campaign_id)) attribs
        pure (g.1, r))
      let campaigns :=
        if perCampaignResults then dedupBy id [] (msdf.map (fun e => e.campaign_id))
        else []
      let campaignCols ← campaigns.mapM (fun c => do
        let r ← upliftSlice cfg pickConv pickRev
          (msdf.filter (fun e => e.campaign_id == c)) attribs
        pure ("c_" ++ toString c, r))
      pure (some ⟨t, groupCols ++ campaignCols⟩)

/-- Name of the exception a computation raised, if it raised one. -/
def errorName? (e : Except String α) : Option String :=
  match e with
  | .error s => some s
  | .ok _ => none

/-- Projection returning the row of a slice that was fully computed
(neither skipped nor aborted by an exception). -/
def computedSlice? (e : Except String (Option UpliftRow)) : Option UpliftRow :=
  match e with
  | .ok (some r) => some r
  | _ => none

/-- Deterministic picking function used to instantiate the resampling
model in the concrete scenarios below (always draw the sample's first
element). -/
def pickZero : Nat → Nat → Nat := fun _ _ => 0

/-- Concrete scenario configuration: confidence level 1/5 and configured
bootstrap size 2 (not a multiple of 10, so the effective size is 2 and
both quantile indices equal 1 — in bounds). -/
def cfgSmall : Config := ⟨1/5, 2⟩

/-- Concrete scenario: a test-group mark of user 1 in campaign 100. -/
def markTest : MSRow := ⟨0, 1, ABGroup.test, 100, 0, "mark"⟩

/-- Concrete scenario: a control-group mark of user 2 in campaign 100. -/
def markControl : MSRow := ⟨0, 2, ABGroup.control, 100, 0, "mark"⟩

/-- Concrete scenario: a control-group mark of user 3 in campaign 200. -/
def markControl200 : MSRow := ⟨0, 3, ABGroup.control, 200, 0, "mark"⟩

/-- Concrete scenario: a revenue event of control user 2, one second
after the mark. -/
def attribControl : AttribRow := ⟨1, 2, 1000000⟩

theorem insortBy_perm (le : α → α → Bool) (x : α) (l : List α) :
    List.Perm (insortBy le x l) (x :: l) := by
  induction l with
  | nil => exact List.Perm.refl _
  | cons y ys ih =>
      rw [insortBy]
      by_cases h : le x y = true
      · simp [h]
      · simp only [h, if_false]
        exact (ih.cons y).trans (List.Perm.swap x y ys)

theorem sortBy_perm (le : α → α → Bool) (l : List α) : List.Perm (sortBy le l) l := by
  induction l with
  | nil => exact List.Perm.refl _
  | cons x xs ih => exact (insortBy_perm le x (sortBy le xs)).trans (ih.cons x)

theorem mem_sortBy {le : α → α → Bool} {l : List α} {a : α} :
    a ∈ sortBy le l ↔ a ∈ l :=
  (sortBy_perm le l).mem_iff

theorem length_sortBy (le : α → α → Bool) (l : List α) :
    (sortBy le l).length = l.length :=
  (sortBy_perm le l).length_eq

theorem insortBy_pairwise {le : α → α → Bool}
    (htot : ∀ a b, le a b = true ∨ le b a = true)
    (htrans : ∀ {a b c}, le a b = true → le b c = true → le a c = true)
    (x : α) {l : List α} (h : l.Pairwise (fun a b => le a b = true)) :
    (insortBy le x l).Pairwise (fun a b => le a b = true) := by
  induction l with
  | nil => simp [insortBy]
  | cons y ys ih =>
      rw [insortBy]
      rcases List.pairwise_cons.mp h with ⟨hy, hys⟩
      by_cases hxy : le x y = true
      · simp only [hxy, if_true]
        refine List.pairwise_cons.mpr ⟨?_, h⟩
        intro z hz
        rcases List.mem_cons.mp hz with rfl | hz
        · exact hxy
        · exact htrans hxy (hy z hz)
      · simp only [hxy, if_false]
        refine List.pairwise_cons.mpr ⟨?_, ih hys⟩
        intro z hz
        rcases List.mem_cons.mp ((insortBy_perm le x ys).mem_iff.mp hz) with h1 | hz
        · rw [h1]
          rcases htot x y with hc | hc
          · exact absurd hc hxy
          · exact hc
        · exact hy z hz

theorem sortBy_pairwise {le : α → α → Bool}
    (htot : ∀ a b, le a b = true ∨ le b a = true)
    (htrans : ∀ {a b c}, le a b = true → le b c = true → le a c = true)
    (l : List α) : (sortBy le l).Pairwise (fun a b => le a b = true) := by
  induction l with
  | nil => simp [sortBy]
  | cons x xs ih => exact insortBy_pairwise htot htrans x ih

theorem sortBy_eq_self {le : α → α → Bool} {l : List α}
    (h : l.Pairwise (fun a b => le a b = true)) : sortBy le l = l := by
  induction l with
  | nil => rfl
  | cons x xs ih =>
      rcases List.pairwise_cons.mp h with ⟨hx, hxs⟩
      rw [sortBy, ih hxs]
      cases xs with
      | nil => rfl
      | cons y ys => rw [insortBy, if_pos (hx y (List.mem_cons_self y ys))]

theorem dedupBy_sublist (key : α → β) [DecidableEq β] :
    ∀ (seen : List β) (l : List α), List.Sublist (dedupBy key seen l) l := by
  intro seen l
  induction l generalizing seen with
  | nil => simp [dedupBy]
  | cons x xs ih =>
      rw [dedupBy]
      by_cases h : key x ∈ seen
      · simp only [h, if_true]
        exact (ih seen).cons x
      · simp only [h, if_false]
        exact (ih (key x :: seen)).cons₂ x

theorem mem_dedupBy_key {key : α → β} [DecidableEq β] :
    ∀ {seen : List β} {l : List α} {u : β},
    u ∈ (dedupBy key seen l).map key ↔ u ∈ l.map key ∧ u ∉ seen := by
  intro seen l
  induction l generalizing seen with
  | nil => simp [dedupBy]
  | cons x xs ih =>
      intro u
      rw [dedupBy]
      by_cases h : key x ∈ seen
      · simp only [h, if_true, List.map_cons, List.mem_cons]
        rw [ih]
        constructor
        · exact fun ⟨hm, hs⟩ => ⟨Or.inr hm, hs⟩
        · rintro ⟨hm | hm, hs⟩
          · exact absurd (hm ▸ h) hs
          · exact ⟨hm, hs⟩
      · simp only [h, if_false, List.map_cons, List.mem_cons]
        rw [ih]
        constructor
        · rintro (rfl | ⟨hm, hs⟩)
          · exact ⟨Or.inl rfl, h⟩
          · exact ⟨Or.inr hm, fun hu => hs (List.mem_cons_of_mem _ hu)⟩
        · rintro ⟨hm | hm, hs⟩
          · exact Or.inl hm
          · by_cases hx : u = key x
            · exact Or.inl hx
            · exact Or.inr ⟨hm, by simp [hx, hs]⟩

theorem dedupBy_key_pairwise (key : α → β) [DecidableEq β] :
    ∀ (seen : List β) (l : List α),
    (dedupBy key seen l).Pairwise (fun a b => key a ≠ key b) := by
  intro seen l
  induction l generalizing seen with
  | nil => simp [dedupBy]
  | cons x xs ih =>
      rw [dedupBy]
      by_cases h : key x ∈ seen
      · simpa [h] using ih seen
      · simp only [h, if_false]
        refine List.pairwise_cons.mpr ⟨?_, ih (key x :: seen)⟩
        intro y hy hxy
        have : key y ∈ (dedupBy key (key x :: seen) xs).map key :=
          List.mem_map_of_mem key hy
        have := (mem_dedupBy_key.mp this).2
        exact this (by simp [hxy])

theorem dedupBy_eq_self {key : α → β} [DecidableEq β] :
    ∀ {seen : List β} {l : List α}, (∀ a ∈ l, key a ∉ seen) →
    l.Pairwise (fun a b => key a ≠ key b) → dedupBy key seen l = l := by
  intro seen l
  induction l generalizing seen with
  | nil => intro _ _; rfl
  | cons x xs ih =>
      intro hseen hpw
      rcases List.pairwise_cons.mp hpw with ⟨hx, hxs⟩
      rw [dedupBy, if_neg (hseen x (List.mem_cons_self x xs))]
      congr 1
      refine ih ?_ hxs
      intro a ha
      simp only [List.mem_cons, not_or]
      exact ⟨fun hk => (hx a ha) hk.symm, hseen a (List.mem_cons_of_mem x ha)⟩

theorem dedupBy_eq_nil {key : α → β} [DecidableEq β] :
    ∀ {seen : List β} {l : List α}, (∀ a ∈ l, key a ∈ seen) →
    dedupBy key seen l = [] := by
  intro seen l
  induction l generalizing seen with
  | nil => intro _; rfl
  | cons x xs ih =>
      intro hseen
      rw [dedupBy, if_pos (hseen x (List.mem_cons_self x xs))]
      exact ih fun a ha => hseen a (List.mem_cons_of_mem x ha)

theorem filter_map_comm (f : α → β) (p : β → Bool) (l : List α) :
    (l.map f).filter p = (l.filter (fun a => p (f a))).map f := by
  induction l with
  | nil => rfl
  | cons x xs ih =>
      by_cases h : p (f x) = true
      · simp [List.filter_cons, h, ih]
      · simp [List.filter_cons, h, ih]

theorem head?_filter (p : α → Bool) (l : List α) :
    (l.filter p).head? = l.find? p := by
  induction l with
  | nil => rfl
  | cons x xs ih =>
      by_cases h : p x = true
      · simp [List.filter_cons, List.find?_cons, h]
      · simp [List.filter_cons, List.find?_cons, h, ih]

theorem filter_eq_singleton_of_pairwise_ne [DecidableEq α] {l : List α}
    (h : l.Pairwise (fun a b => a ≠ b)) (u : α) :
    l.filter (fun v => v == u) = if u ∈ l then [u] else [] := by
  induction l with
  | nil => rfl
  | cons x xs ih =>
      rcases List.pairwise_cons.mp h with ⟨hx, hxs⟩
      by_cases hxu : x = u
      · subst hxu
        have hnot : ∀ v ∈ xs, ¬(v == x) = true := by
          intro v hv hb
          exact (hx v hv) (beq_iff_eq.mp hb).symm
        simp [List.filter_cons, List.filter_eq_nil_iff.mpr hnot]
      · simp only [List.filter_cons, show (x == u) = false by simp [hxu], if_false]
        rw [ih hxs]
        simp [List.mem_cons, show ¬u = x from fun h => hxu h.symm]

theorem leTs_total : ∀ a b : MSRow, leTs a b = true ∨ leTs b a = true := by
  intro a b
  simp only [leTs, decide_eq_true_eq]
  exact Int.le_total a.ts b.ts

theorem leTs_trans : ∀ {a b c : MSRow},
    leTs a b = true → leTs b c = true → leTs a c = true := by
  intro a b c hab hbc
  simp only [leTs, decide_eq_true_eq] at *
  exact le_trans hab hbc

theorem markedRows_event_type {l : List MSRow} :
    ∀ r ∈ markedRows l, r.event_type = "mark" := by
  intro r hr
  have h1 : r ∈ sortBy leTs (l.filter (fun r => r.event_type == "mark")) :=
    (dedupBy_sublist MSRow.user_id [] _).subset hr
  have h2 := mem_sortBy.mp h1
  exact beq_iff_eq.mp (List.mem_filter.mp h2).2

theorem markedRows_ts_sorted (l : List MSRow) :
    (markedRows l).Pairwise (fun a b => leTs a b = true) :=
  (sortBy_pairwise leTs_total leTs_trans _).sublist (dedupBy_sublist _ _ _)

theorem markedRows_users_distinct (l : List MSRow) :
    (markedRows l).Pairwise (fun a b => a.user_id ≠ b.user_id) :=
  dedupBy_key_pairwise MSRow.user_id [] _

theorem markedRows_idempotent (l : List MSRow) :
    markedRows (markedRows l) = markedRows l := by
  rw [markedRows]
  rw [List.filter_eq_self.mpr (fun r hr => beq_iff_eq.mpr (markedRows_event_type r hr))]
  rw [sortBy_eq_self (markedRows_ts_sorted l)]
  exact dedupBy_eq_self (by simp) (markedRows_users_distinct l)

theorem markBlock_user (attribs : List AttribRow) (m : MSRow) :
    ∀ r ∈ markBlock attribs m, r.user_id = m.user_id := by
  intro r hr
  rw [markBlock] at hr
  rcases h : attribs.filter (fun a => a.user_id == m.user_id) with _ | ⟨a, as⟩
  · rw [h] at hr
    simp at hr
    rw [hr]
  · rw [h] at hr
    rcases List.mem_map.mp hr with ⟨b, _, hb⟩
    rw [← hb]

theorem markBlock_ne_nil (attribs : List AttribRow) (m : MSRow) :
    markBlock attribs m ≠ [] := by
  rw [markBlock]
  rcases h : attribs.filter (fun a => a.user_id == m.user_id) with _ | ⟨a, as⟩
  · rw [h]
    simp
  · rw [h]
    simp

theorem mem_map_user_markBlock {attribs : List AttribRow} {m : MSRow} {u : Int} :
    u ∈ (markBlock attribs m).map MergedRow.user_id ↔ u = m.user_id := by
  constructor
  · intro h
    rcases List.mem_map.mp h with ⟨r, hr, hru⟩
    rw [← hru, markBlock_user attribs m r hr]
  · intro h
    rcases List.exists_mem_of_ne_nil _ (markBlock_ne_nil attribs m) with ⟨r, hr⟩
    have := markBlock_user attribs m r hr
    exact List.mem_map.mpr ⟨r, hr, by rw [this, h]⟩

theorem mergedRows_cons (m : MSRow) (ms : List MSRow) (attribs : List AttribRow) :
    mergedRows (m :: ms) attribs = markBlock attribs m ++ mergedRows ms attribs := by
  simp [mergedRows]

theorem mem_map_user_mergedRows {marks : List MSRow} {attribs : List AttribRow}
    {u : Int} :
    u ∈ (mergedRows marks attribs).map MergedRow.user_id ↔
      u ∈ marks.map MSRow.user_id := by
  induction marks with
  | nil => simp [mergedRows]
  | cons m ms ih =>
      rw [mergedRows_cons]
      simp only [List.map_append, List.mem_append, List.map_cons, List.mem_cons]
      rw [ih, mem_map_user_markBlock]

theorem markBlock_of_no_attrib {attribs : List AttribRow} {m : MSRow}
    (h : m.user_id ∉ attribs.map AttribRow.user_id) :
    markBlock attribs m = [⟨m.user_id, m.ab_test_group, 0, 0⟩] := by
  rw [markBlock]
  have hf : attribs.filter (fun a => a.user_id == m.user_id) = [] := by
    refine List.filter_eq_nil_iff.mpr ?_
    intro a ha hb
    exact h (List.mem_map.mpr ⟨a, ha, beq_iff_eq.mp hb⟩)
  rw [hf]

theorem mergedRows_filter_of_no_attrib {marks : List MSRow}
    {attribs : List AttribRow} {u : Int}
    (h : u ∉ attribs.map AttribRow.user_id) :
    (mergedRows marks attribs).filter (fun r => r.user_id == u) =
      (marks.filter (fun m => m.user_id == u)).map
        (fun m => ⟨m.user_id, m.ab_test_group, 0, 0⟩) := by
  induction marks with
  | nil => simp [mergedRows]
  | cons m ms ih =>
      rw [mergedRows_cons, List.filter_append, List.filter_cons, ih]
      by_cases hm : m.user_id = u
      · have hblock : markBlock attribs m = [⟨m.user_id, m.ab_test_group, 0, 0⟩] :=
          markBlock_of_no_attrib (by rw [hm]; exact h)
        rw [hblock]
        simp [hm]
      · have hblock : (markBlock attribs m).filter (fun r => r.user_id == u) = [] := by
          refine List.filter_eq_nil_iff.mpr ?_
          intro r hr hb
          exact hm ((markBlock_user attribs m r hr) ▸ beq_iff_eq.mp hb)
        rw [hblock]
        simp [hm]

theorem leInt_total : ∀ a b : Int, leInt a b = true ∨ leInt b a = true := by
  intro a b
  simp only [leInt, decide_eq_true_eq]
  exact Int.le_total a b

theorem userAggregateOf_user (merged : List MergedRow) (u : Int) :
    (userAggregateOf merged u).user_id = u := rfl

theorem userKeys_pairwise_ne (marks : List MSRow) (attribs : List AttribRow) :
    (sortBy leInt (dedupBy id []
      ((mergedRows marks attribs).map MergedRow.user_id))).Pairwise
        (fun a b => a ≠ b) := by
  have h1 : (dedupBy id [] ((mergedRows marks attribs).map MergedRow.user_id)).Pairwise
      (fun a b : Int => a ≠ b) := dedupBy_key_pairwise id [] _
  exact ((sortBy_perm leInt _).pairwise_iff (fun h => Ne.symm h)).mpr h1

theorem mem_userKeys {marks : List MSRow} {attribs : List AttribRow} {u : Int} :
    u ∈ sortBy leInt (dedupBy id []
      ((mergedRows marks attribs).map MergedRow.user_id)) ↔
    u ∈ marks.map MSRow.user_id := by
  rw [mem_sortBy]
  have h2 : u ∈ dedupBy id []
      ((mergedRows marks attribs).map MergedRow.user_id) ↔
      u ∈ (mergedRows marks attribs).map MergedRow.user_id := by
    have h := @mem_dedupBy_key Int Int id _ []
      ((mergedRows marks attribs).map MergedRow.user_id) u
    rw [List.map_id] at h
    simpa using h
  rw [h2, mem_map_user_mergedRows]

theorem usersDf_filter_user (marks : List MSRow) (attribs : List AttribRow)
    (u : Int) :
    (usersDf marks attribs).filter (fun r => r.user_id == u) =
      if u ∈ marks.map MSRow.user_id then
        [userAggregateOf (mergedRows marks attribs) u] else [] := by
  rw [usersDf, filter_map_comm]
  rw [List.filter_congr (fun v _ => by
    show ((userAggregateOf (mergedRows marks attribs) v).user_id == u) = (v == u)
    rw [userAggregateOf_user])]
  rw [filter_eq_singleton_of_pairwise_ne (userKeys_pairwise_ne marks attribs) u]
  by_cases hu : u ∈ marks.map MSRow.user_id
  · rw [if_pos (mem_userKeys.mpr hu), if_pos hu]
    rfl
  · rw [if_neg (fun hh => hu (mem_userKeys.mp hh)), if_neg hu]
    rfl

theorem userAggregateOf_of_no_attrib {marks : List MSRow}
    {attribs : List AttribRow} {u : Int} {m : MSRow}
    (hfind : marks.find? (fun r => r.user_id == u) = some m)
    (hno : u ∉ attribs.map AttribRow.user_id) :
    userAggregateOf (mergedRows marks attribs) u =
      ⟨u, m.ab_test_group, 0, 0⟩ := by
  have hblock := @mergedRows_filter_of_no_attrib marks attribs u hno
  rw [← head?_filter] at hfind
  rcases hfl : marks.filter (fun r => r.user_id == u) with _ | ⟨m0, rest⟩
  · rw [hfl] at hfind
    exact absurd hfind (by simp)
  · rw [hfl] at hfind
    have hm0 : m0 = m := by
      simpa using hfind
    subst hm0
    rw [userAggregateOf, hblock, hfl]
    have hconv : ((((m0 :: rest).map
        (fun m => (⟨m.user_id, m.ab_test_group, 0, 0⟩ : MergedRow))).map
          MergedRow.conversion_count).sum : Int) = 0 := by
      rw [List.map_map]
      exact List.sum_eq_zero (by
        intro x hx
        rcases List.mem_map.mp hx with ⟨y, _, hy⟩
        rw [← hy]
        rfl)
    have hrev : ((((m0 :: rest).map
        (fun m => (⟨m.user_id, m.ab_test_group, 0, 0⟩ : MergedRow))).map
          MergedRow.revenue_eur).sum : ℚ) = 0 := by
      rw [List.map_map]
      exact List.sum_eq_zero (by
        intro x hx
        rcases List.mem_map.mp hx with ⟨y, _, hy⟩
        rw [← hy]
        rfl)
    simp only [hconv, hrev]
    rfl

theorem mkUpliftRow_ok {alpha adSpend : ℚ} {tU cU : List UserAggregate}
    {c1 c2 : ℚ × ℚ} {r : UpliftRow}
    (h : mkUpliftRow alpha adSpend tU cU c1 c2 = .ok r) :
    (r.incremental_converters_estimate +
      r.control_converters * r.ratio_test_control = r.test_converters) ∧
    (r.cost_per_incremental_converter_estimate =
      if r.ad_spend / r.incremental_converters_estimate < 0 then
        Sum.inr negConvertersSentinel
      else Sum.inl (r.ad_spend / r.incremental_converters_estimate)) := by
  simp only [mkUpliftRow] at h
  split at h
  · injection h with h2
    subst h2
    refine ⟨by ring, ?_⟩
    rfl
  · exact absurd h (by simp)

theorem computedSlice_map_some {e : Except String UpliftRow} {r : UpliftRow}
    (h : computedSlice? (e.map some) = some r) : e = .ok r := by
  cases e with
  | error s => simp [computedSlice?, Except.map] at h
  | ok v =>
      simp only [computedSlice?, Except.map, Option.some.injEq] at h
      rw [h]

theorem upliftSlice_computed {cfg : Config} {p1 p2 : Nat → Nat → Nat}
    {msdf : List MSRow} {attribs : List AttribRow} {r : UpliftRow}
    (h : computedSlice? (upliftSlice cfg p1 p2 msdf attribs) = some r) :
    ∃ a s tU cU c1 c2, mkUpliftRow a s tU cU c1 c2 = .ok r := by
  rw [upliftSlice] at h
  split at h
  · simp [computedSlice?] at h
  · split at h
    · simp [computedSlice?] at h
    · simp only [] at h
      split at h
      · simp [computedSlice?] at h
      · split at h
        · simp [computedSlice?] at h
        · split at h
          · simp [computedSlice?] at h
          · split at h
            · simp [computedSlice?] at h
            · exact ⟨_, _, _, _, _, _, computedSlice_map_some h⟩

theorem lowerQuantileIdx_lt {cl : ℚ} {n : Nat} (h0 : 0 < cl) (h1 : cl < 1)
    (hn : 1 ≤ n) : (lowerQuantileIdx cl n).toNat < n := by
  have hn1 : (1 : ℚ) ≤ (n : ℚ) := by exact_mod_cast hn
  have hx : ((1 - cl) / 2) * ((n : ℚ) + 1) < (n : ℚ) := by
    have hhalf : (1 - cl) / 2 < 1 / 2 := by linarith
    have hpos : (0 : ℚ) < (n : ℚ) + 1 := by linarith
    have := mul_lt_mul_of_pos_right hhalf hpos
    nlinarith
  have hfl : lowerQuantileIdx cl n < (n : Int) := by
    rw [lowerQuantileIdx]
    exact_mod_cast Int.floor_lt.mpr (by exact_mod_cast hx)
  omega

theorem upperQuantileIdx_le {cl : ℚ} {n : Nat} (h1 : cl < 1) :
    (upperQuantileIdx cl n).toNat ≤ n := by
  have hx : ((1 - cl) / 2 + cl) * ((n : ℚ) + 1) < (n : ℚ) + 1 := by
    have hlt : (1 - cl) / 2 + cl < 1 := by linarith
    have hpos : (0 : ℚ) < (n : ℚ) + 1 := by positivity
    nlinarith
  have hfl : upperQuantileIdx cl n < (n : Int) + 1 := by
    rw [upperQuantileIdx]
    exact_mod_cast Int.floor_lt.mpr (by push_cast; exact_mod_cast hx)
  omega

theorem length_bootstrapMeans (cfg : Config) (sample : List ℚ)
    (pick : Nat → Nat → Nat) :
    (bootstrapMeans cfg sample pick).length =
      effectiveBootstrapSize cfg.bootstrap_size_configured := by
  rw [bootstrapMeans, length_sortBy, List.length_map, List.length_range]

theorem bootstrapMeanCI_ok_of_idx {cfg : Config} {sample : List ℚ}
    {pick : Nat → Nat → Nat}
    (hl : (lowerQuantileIdx cfg.confidence_level
      (effectiveBootstrapSize cfg.bootstrap_size_configured)).toNat <
        effectiveBootstrapSize cfg.bootstrap_size_configured)
    (hu : (upperQuantileIdx cfg.confidence_level
      (effectiveBootstrapSize cfg.bootstrap_size_configured)).toNat <
        effectiveBootstrapSize cfg.bootstrap_size_configured) :
    errorName? (bootstrapMeanCI cfg sample pick) = none := by
  rw [bootstrapMeanCI]
  have hlen := length_bootstrapMeans cfg sample pick
  have hlo : (bootstrapMeans cfg sample pick).get?
      (lowerQuantileIdx cfg.confidence_level
        (effectiveBootstrapSize cfg.bootstrap_size_configured)).toNat ≠ none := by
    rw [ne_eq, List.get?_eq_none]
    omega
  have hhi : (bootstrapMeans cfg sample pick).get?
      (upperQuantileIdx cfg.confidence_level
        (effectiveBootstrapSize cfg.bootstrap_size_configured)).toNat ≠ none := by
    rw [ne_eq, List.get?_eq_none]
    omega
  rcases Option.ne_none_iff_exists'.mp hlo with ⟨lo, hlo2⟩
  rcases Option.ne_none_iff_exists'.mp hhi with ⟨hi, hhi2⟩
  rw [hlo2, hhi2]
  rfl

theorem length_resample (sample : List ℚ) (pick : Nat → Nat → Nat) (i : Nat) :
    (resample sample pick i).length = sample.length := by
  simp [resample]

theorem mem_resample {sample : List ℚ} {pick : Nat → Nat → Nat} {i : Nat} {x : ℚ}
    (hs : sample ≠ []) (hx : x ∈ resample sample pick i) : x ∈ sample := by
  rw [resample] at hx
  rcases List.mem_map.mp hx with ⟨j, _, hxe⟩
  rw [← hxe]
  have hlen : 0 < sample.length := List.length_pos.mpr hs
  have hmod : pick i j % sample.length < sample.length := Nat.mod_lt _ hlen
  rw [List.getD_eq_getElem?_getD, List.getElem?_eq_getElem hmod]
  exact List.getElem_mem hmod

theorem mergedRows_single (m : MSRow) (as : List AttribRow) :
    mergedRows [m] as = markBlock as m := by
  simp [mergedRows]

theorem markBlock_all_user_cons {m : MSRow} {a : AttribRow} {as0 : List AttribRow}
    (hfilter : (a :: as0).filter (fun x => x.user_id == m.user_id) = a :: as0) :
    markBlock (a :: as0) m = (a :: as0).map (fun x =>
      (⟨m.user_id, m.ab_test_group,
        if m.ts < x.ts then 1 else 0,
        if m.ts < x.ts then x.revenue_eur else 0⟩ : MergedRow)) := by
  rw [markBlock, hfilter]

/-- Claim C4 (amended): in `_merge_into_users_df`, a matched attribution
row contributes to the user's `conversion_count` and `revenue_eur` if and
only if its timestamp is strictly greater than the mark timestamp
(`merged_df.ts_x < merged_df.ts_y`); an attribution whose timestamp
exactly equals the mark timestamp is dropped, not kept. -/
theorem c4_strictly_later_contributes (m : MSRow) (as : List AttribRow)
    (h : ∀ a ∈ as, a.user_id = m.user_id) :
    usersDf [m] as = [UserAggregate.mk m.user_id m.ab_test_group
      ((as.map (fun x => if m.ts < x.ts then (1 : Int) else 0)).sum)
      ((as.map (fun x => if m.ts < x.ts then x.revenue_eur else 0)).sum)] := by
  have hfilter : as.filter (fun x => x.user_id == m.user_id) = as :=
    List.filter_eq_self.mpr (fun a ha => beq_iff_eq.mpr (h a ha))
  cases as with
  | nil =>
      simp [usersDf, mergedRows, markBlock, userAggregateOf, firstABGroup,
        dedupBy, sortBy, insortBy]
  | cons a as0 =>
      have hblock := @markBlock_all_user_cons m a as0 hfilter
      have hmerged : mergedRows [m] (a :: as0) = (a :: as0).map (fun x =>
          (⟨m.user_id, m.ab_test_group,
            if m.ts < x.ts then 1 else 0,
            if m.ts < x.ts then x.revenue_eur else 0⟩ : MergedRow)) := by
        rw [mergedRows_single, hblock]
      have husers : (mergedRows [m] (a :: as0)).map MergedRow.user_id =
          (a :: as0).map (fun _ => m.user_id) := by
        rw [hmerged, List.map_map]
        rfl
      have hdedup : dedupBy id [] ((a :: as0).map (fun _ => m.user_id)) =
          [m.user_id] := by
        rw [List.map_cons, dedupBy, if_neg (by simp)]
        have : dedupBy id [id m.user_id] (as0.map (fun _ => m.user_id)) = [] := by
          refine dedupBy_eq_nil ?_
          intro x hx
          rcases List.mem_map.mp hx with ⟨y, _, hy⟩
          simp [← hy]
        rw [this]
      have hsort : sortBy leInt [m.user_id] = [m.user_id] := by
        simp [sortBy, insortBy]
      have hblockfilter : (mergedRows [m] (a :: as0)).filter
          (fun r => r.user_id == m.user_id) = mergedRows [m] (a :: as0) := by
        refine List.filter_eq_self.mpr ?_
        intro r hr
        rw [hmerged] at hr
        rcases List.mem_map.mp hr with ⟨y, _, hy⟩
        rw [← hy]
        simp
      simp only [usersDf]
      rw [husers, hdedup, hsort, List.map_cons, List.map_nil]
      congr 1
      rw [userAggregateOf, hblockfilter, hmerged]
      simp only [List.map_map, firstABGroup, List.map_cons]
      rfl

theorem leRat_total : ∀ a b : ℚ, leRat a b = true ∨ leRat b a = true := by
  intro a b
  simp only [leRat, decide_eq_true_eq]
  exact le_total a b

theorem leRat_trans : ∀ {a b c : ℚ},
    leRat a b = true → leRat b c = true → leRat a c = true := by
  intro a b c hab hbc
  simp only [leRat, decide_eq_true_eq] at *
  exact le_trans hab hbc

/-- Claim C5 (counterexample): `_marked` drops the `event_type` column
from its output, so applying the operation to its own (nonempty) output
raises `AttributeError` instead of yielding an identical MarkRecord set. -/
theorem c5_reapply_counterexample :
    markedTable ⟨true, [⟨0, 2, ABGroup.control, 100, 0, "mark"⟩]⟩ =
      .ok ⟨false, [⟨0, 2, ABGroup.control, 100, 0, "mark"⟩]⟩ ∧
    markedTable ⟨false, [⟨0, 2, ABGroup.control, 100, 0, "mark"⟩]⟩ =
      .error "AttributeError: event_type" :=
  ⟨rfl, rfl⟩

/-- Claim C5 (amended): the row-level content of mark extraction
(filter to mark events, sort by timestamp, keep the first row per user)
is idempotent, and its output has exactly one row per user; the literal
re-application of `_marked` to its own output fails only because the
output lacks the dropped `event_type` column. -/
theorem c5_row_level_idempotent (l : List MSRow) :
    markedRows (markedRows l) = markedRows l ∧
    (markedRows l).Pairwise (fun a b => a.user_id ≠ b.user_id) :=
  ⟨markedRows_idempotent l, markedRows_users_distinct l⟩

/-- Claim C3 (code bug exhibit): two attributions of the same user and
revenue whose epoch-second timestamps are one hour apart — far more than
the 60 s gap — are deduplicated anyway: `pd.to_datetime` reads the
integer timestamps at nanosecond resolution, so their distance is
computed as 3600 ns and the second row is dropped. -/
theorem c3_dedup_nanosecond_gap :
    dropDuplicatesOneMinute [⟨0, 7, 5⟩, ⟨3600, 7, 5⟩] = [⟨0, 7, 5⟩] ∧
    (3600 : Int) - 0 > 60 := by
  constructor
  · decide
  · decide

/-- Claim C1 (code bug exhibit): a named group slice containing only
control-marked users makes `uplift_report` raise `KeyError` from
`grouped_users.get_group(TEST)` — aborting the report and the sibling
slices — even though the total slice alone computes fine; the
skip-with-warning branches of `_uplift` are unreachable. -/
theorem c1_zero_group_slice_raises :
    errorName? (upliftReport cfgSmall pickZero pickZero
      [markTest, markControl, markControl200] [attribControl]
      [("G", [200])] false) = some "KeyError: test" ∧
    (computedSlice? (upliftSlice cfgSmall pickZero pickZero
      [markTest, markControl, markControl200] [attribControl])).isSome = true := by
  constructor
  · norm_num +decide [upliftReport, upliftSlice, markedRows, usersDf,
      mergedRows, markBlock, userAggregateOf, firstABGroup, dedupBy, sortBy,
      insortBy, leTs, leInt, calculateAdSpend, bootstrapMeanCI, bootstrapMeans,
      effectiveBootstrapSize, resample, listMean, leRat, lowerQuantileIdx,
      upperQuantileIdx, mkUpliftRow, binomPpf, binomCdf, errorName?,
      computedSlice?, cfgSmall, pickZero, markTest, markControl, markControl200,
      attribControl, List.mapM, List.mapM.loop, Except.bind]
  · norm_num +decide [upliftSlice, markedRows, usersDf, mergedRows, markBlock,
      userAggregateOf, firstABGroup, dedupBy, sortBy, insortBy, leTs, leInt,
      calculateAdSpend, bootstrapMeanCI, bootstrapMeans, effectiveBootstrapSize,
      resample, listMean, leRat, lowerQuantileIdx, upperQuantileIdx,
      mkUpliftRow, binomPpf, binomCdf, computedSlice?, cfgSmall, pickZero,
      markTest, markControl, markControl200, attribControl]

/-- Claim C6 (code bug exhibit): a slice whose control group has zero
conversions (`control_cvr == 0`) raises `NameError` while building the
report, because `uplift_l_bound` is assigned only when
`control_cvr > 0`; no report with a zero CVR uplift estimate is
produced. -/
theorem c6_zero_control_cvr_nameerror :
    errorName? (upliftSlice cfgSmall pickZero pickZero
      [markTest, markControl] []) = some "NameError: uplift_l_bound" := by
  norm_num +decide [upliftSlice, markedRows, usersDf, mergedRows, markBlock,
    userAggregateOf, firstABGroup, dedupBy, sortBy, insortBy, leTs, leInt,
    calculateAdSpend, bootstrapMeanCI, bootstrapMeans, effectiveBootstrapSize,
    resample, listMean, leRat, lowerQuantileIdx, upperQuantileIdx, mkUpliftRow,
    binomPpf, binomCdf, errorName?, cfgSmall, pickZero, markTest, markControl]

/-- Claim C2 (counterexample): with zero ad spend and a negative
incremental converters estimate (−1), the reported
cost-per-incremental-converter is the number 0, not the sentinel: the
source tests `ad_spend / estimate < 0`, not `estimate < 0`. -/
theorem c2_sentinel_counterexample :
    (computedSlice? (upliftSlice cfgSmall pickZero pickZero
      [markTest, markControl] [attribControl])).map
        (fun r => (r.incremental_converters_estimate,
          r.cost_per_incremental_converter_estimate)) =
      some (-1, Sum.inl 0) ∧ (-1 : ℚ) < 0 := by
  constructor
  · norm_num +decide [upliftSlice, markedRows, usersDf, mergedRows, markBlock,
      userAggregateOf, firstABGroup, dedupBy, sortBy, insortBy, leTs, leInt,
      calculateAdSpend, bootstrapMeanCI, bootstrapMeans, effectiveBootstrapSize,
      resample, listMean, leRat, lowerQuantileIdx, upperQuantileIdx,
      mkUpliftRow, binomPpf, binomCdf, computedSlice?, cfgSmall, pickZero,
      markTest, markControl, attribControl]
  · norm_num

/-- Claim C2 (amended): for every computed slice, the
cost-per-incremental-converter cell is the negative-estimate sentinel iff
`ad_spend / incremental_converters_estimate < 0` (which coincides with
`incremental_converters_estimate < 0` whenever `ad_spend > 0`), and
otherwise it is the numeric value `ad_spend /
incremental_converters_estimate`. -/
theorem c2_sentinel_iff_negative_cost (cfg : Config)
    (pickConv pickRev : Nat → Nat → Nat) (msdf : List MSRow)
    (attribs : List AttribRow) :
    Option.elim (computedSlice? (upliftSlice cfg pickConv pickRev msdf attribs))
      True (fun r => r.cost_per_incremental_converter_estimate =
        if r.ad_spend / r.incremental_converters_estimate < 0 then
          Sum.inr negConvertersSentinel
        else Sum.inl (r.ad_spend / r.incremental_converters_estimate)) := by
  cases hc : computedSlice? (upliftSlice cfg pickConv pickRev msdf attribs) with
  | none => exact trivial
  | some r =>
      obtain ⟨a, s, tU, cU, c1, c2, hmk⟩ := upliftSlice_computed hc
      exact (mkUpliftRow_ok hmk).2

/-- Claim C9 (confirmed): for every computed slice, the identity
`incremental_converters_estimate + control_converters * ratio =
test_converters` holds exactly (the estimate is defined as
`test_converters - control_converters * ratio`). -/
theorem c9_converters_identity (cfg : Config)
    (pickConv pickRev : Nat → Nat → Nat) (msdf : List MSRow)
    (attribs : List AttribRow) :
    Option.elim (computedSlice? (upliftSlice cfg pickConv pickRev msdf attribs))
      True (fun r => r.incremental_converters_estimate +
        r.control_converters * r.ratio_test_control = r.test_converters) := by
  cases hc : computedSlice? (upliftSlice cfg pickConv pickRev msdf attribs) with
  | none => exact trivial
  | some r =>
      obtain ⟨a, s, tU, cU, c1, c2, hmk⟩ := upliftSlice_computed hc
      exact (mkUpliftRow_ok hmk).1

/-- Claim C4 (counterexample): an attribution whose timestamp exactly
equals its user's mark timestamp (both 5) is excluded: the merged user
row has `conversion_count = 0` and `revenue_eur = 0`, not 1 and 9,
because the source keeps a row only when `ts_x < ts_y` strictly. -/
theorem c4_equal_timestamp_counterexample :
    usersDf [⟨5, 7, ABGroup.test, 1, 0, "mark"⟩] [⟨5, 7, 9⟩] =
      [⟨7, ABGroup.test, 0, 0⟩] := by
  norm_num +decide [usersDf, mergedRows, markBlock, userAggregateOf,
    firstABGroup, dedupBy, sortBy, insortBy, leInt]

/-- Claim C4 (witness): the amended theorem applied to a one-second-later
attribution of revenue 8: it is counted in full. -/
theorem c4_witness :
    usersDf [markTest] [⟨1, 1, 8⟩] = [UserAggregate.mk 1 ABGroup.test 1 8] := by
  have h := c4_strictly_later_contributes markTest [⟨1, 1, 8⟩]
    (by intro a ha; rcases List.mem_singleton.mp ha with rfl; rfl)
  rw [h]
  norm_num [markTest]

/-- Claim C8 (confirmed): merging produces exactly one UserAggregate row
per distinct `user_id` of the marks table, and a marked user with no
attribution row gets `conversion_count = 0`, `revenue_eur = 0` and the
`ab_test_group` of their (first) mark record. -/
theorem c8_one_row_per_marked_user (marks : List MSRow)
    (attribs : List AttribRow) (u : Int) :
    ((usersDf marks attribs).filter (fun r => r.user_id == u)).length =
      (if u ∈ marks.map MSRow.user_id then 1 else 0) ∧
    (∀ m, marks.find? (fun r => r.user_id == u) = some m →
      u ∉ attribs.map AttribRow.user_id →
      (usersDf marks attribs).filter (fun r => r.user_id == u) =
        [⟨u, m.ab_test_group, 0, 0⟩]) := by
  constructor
  · rw [usersDf_filter_user]
    by_cases hu : u ∈ marks.map MSRow.user_id
    · simp [hu]
    · simp [hu]
  · intro m hfind hno
    have hu : u ∈ marks.map MSRow.user_id := by
      have hm := List.mem_of_find?_eq_some hfind
      have hp := List.find?_some hfind
      exact List.mem_map.mpr ⟨m, hm, beq_iff_eq.mp hp⟩
    rw [usersDf_filter_user, if_pos hu, userAggregateOf_of_no_attrib hfind hno]

/-- Claim C8 (witness): a single control mark of user 2 with no
attributions yields exactly the one all-zero control row for user 2. -/
theorem c8_witness :
    (usersDf [markControl] []).filter (fun r => r.user_id == 2) =
      [⟨2, ABGroup.control, 0, 0⟩] := by
  have h := (c8_one_row_per_marked_user [markControl] [] 2).2 markControl
    (by rw [List.find?]; norm_num [markControl]) (by simp)
  rw [h, markControl]

/-- Claim C7 (confirmed): the effective bootstrap size is the configured
size minus one exactly for multiples of 10 (default 10000 → 9999); every
resample has the sample's size and draws from the sample; the resample
means are sorted ascending, one per resample; and the returned interval
reads the sorted means at the two floor-quantile indices. -/
theorem c7_bootstrap_contract (bs : Nat) (cfg : Config) (sample : List ℚ)
    (pick : Nat → Nat → Nat) :
    (10 ∣ bs → effectiveBootstrapSize bs = bs - 1) ∧
    (¬ 10 ∣ bs → effectiveBootstrapSize bs = bs) ∧
    effectiveBootstrapSize 10000 = 9999 ∧
    (∀ i, (resample sample pick i).length = sample.length) ∧
    (sample ≠ [] → ∀ i x, x ∈ resample sample pick i → x ∈ sample) ∧
    (bootstrapMeans cfg sample pick).length =
      effectiveBootstrapSize cfg.bootstrap_size_configured ∧
    (bootstrapMeans cfg sample pick).Pairwise (fun a b : ℚ => a ≤ b) ∧
    (∀ lo hi, bootstrapMeanCI cfg sample pick = .ok (lo, hi) →
      (bootstrapMeans cfg sample pick).get?
        (lowerQuantileIdx cfg.confidence_level
          (effectiveBootstrapSize cfg.bootstrap_size_configured)).toNat =
            some lo ∧
      (bootstrapMeans cfg sample pick).get?
        (upperQuantileIdx cfg.confidence_level
          (effectiveBootstrapSize cfg.bootstrap_size_configured)).toNat =
            some hi) := by
  refine ⟨?_, ?_, by decide, length_resample sample pick,
    fun hs i x hx => mem_resample hs hx, length_bootstrapMeans cfg sample pick,
    ?_, ?_⟩
  · intro hdvd
    have hm : bs % 10 = 0 := by omega
    simp [effectiveBootstrapSize, hm]
  · intro hdvd
    have hm : bs % 10 ≠ 0 := by omega
    simp [effectiveBootstrapSize, hm]
  · have hpw := sortBy_pairwise leRat_total leRat_trans
      ((List.range (effectiveBootstrapSize cfg.bootstrap_size_configured)).map
        (fun i => listMean (resample sample pick i)))
    rw [bootstrapMeans]
    exact hpw.imp (fun h => by simpa [leRat] using h)
  · intro lo hi h
    simp only [bootstrapMeanCI] at h
    rcases hl : (bootstrapMeans cfg sample pick).get?
        (lowerQuantileIdx cfg.confidence_level
          (effectiveBootstrapSize cfg.bootstrap_size_configured)).toNat
      with _ | lo'
    · rw [hl] at h
      simp at h
    · rcases hh : (bootstrapMeans cfg sample pick).get?
          (upperQuantileIdx cfg.confidence_level
            (effectiveBootstrapSize cfg.bootstrap_size_configured)).toNat
        with _ | hi'
      · rw [hl, hh] at h
        simp at h
      · rw [hl, hh] at h
        simp only [Except.ok.injEq, Prod.mk.injEq] at h
        obtain ⟨rfl, rfl⟩ := h
        exact ⟨rfl, rfl⟩

/-- Claim C7 (witness): the contract instantiated at concrete inputs:
the default size becomes 9999; a resample of `[1, 2]` under the
always-first picker contains only sample elements; and at the small
configuration the interval is read off the sorted means at the computed
indices. -/
theorem c7_witness :
    effectiveBootstrapSize 10000 = 9999 ∧
    (1 : ℚ) ∈ ([1, 2] : List ℚ) ∧
    (bootstrapMeans cfgSmall [3] pickZero).get?
      (lowerQuantileIdx cfgSmall.confidence_level
        (effectiveBootstrapSize cfgSmall.bootstrap_size_configured)).toNat =
          some 3 ∧
    (bootstrapMeans cfgSmall [3] pickZero).get?
      (upperQuantileIdx cfgSmall.confidence_level
        (effectiveBootstrapSize cfgSmall.bootstrap_size_configured)).toNat =
          some 3 := by
  have hread := (c7_bootstrap_contract 2 cfgSmall [3] pickZero).2.2.2.2.2.2.2
    3 3 (by norm_num +decide [bootstrapMeanCI, bootstrapMeans,
      effectiveBootstrapSize, resample, listMean, leRat, sortBy, insortBy,
      lowerQuantileIdx, upperQuantileIdx, cfgSmall, pickZero])
  refine ⟨(c7_bootstrap_contract 10000 cfgSmall [3] pickZero).1 (by norm_num),
    (c7_bootstrap_contract 2 cfgSmall [1, 2] pickZero).2.2.2.2.1 (by simp) 0 1
      ?_, hread.1, hread.2⟩
  norm_num [resample, pickZero]

/-- Claim C10 (counterexample): exactly the configuration the claim
quantifies over — confidence 0.95 in (0,1), configured size 10, so the
effective size is n = 9 ≥ 1 — puts the upper quantile index at 9, which
is not a valid index below n, and the interval computation raises
`IndexError`. -/
theorem c10_upper_index_counterexample :
    ((0 : ℚ) < 19/20 ∧ (19 : ℚ)/20 < 1 ∧ (1 : Nat) ≤ 9) ∧
    effectiveBootstrapSize 10 = 9 ∧
    (upperQuantileIdx (19/20) 9).toNat = 9 ∧
    errorName? (bootstrapMeanCI ⟨19/20, 10⟩ [1] pickZero) =
      some "IndexError: list index out of range" := by
  refine ⟨⟨by norm_num, by norm_num, by norm_num⟩, by decide, ?_, ?_⟩
  · norm_num [upperQuantileIdx]
    decide
  · norm_num +decide [bootstrapMeanCI, bootstrapMeans, effectiveBootstrapSize,
      resample, listMean, leRat, sortBy, insortBy, lowerQuantileIdx,
      upperQuantileIdx, errorName?, pickZero]

/-- Claim C10 (amended): for every confidence level in (0,1) and every
effective size n ≥ 1 the lower index is a valid index below n and the
upper index is at most n — but it can equal n (see the counterexample);
whenever the upper index is strictly below n the interval computation
raises no `IndexError`; at the default effective size 9999 with
confidence 0.95 the indices are 250 and 9750, both in bounds. -/
theorem c10_quantile_index_bounds :
    (∀ (cl : ℚ) (n : Nat), 0 < cl → cl < 1 → 1 ≤ n →
      (lowerQuantileIdx cl n).toNat < n ∧ (upperQuantileIdx cl n).toNat ≤ n) ∧
    (∀ (cfg : Config) (sample : List ℚ) (pick : Nat → Nat → Nat),
      0 < cfg.confidence_level → cfg.confidence_level < 1 →
      1 ≤ effectiveBootstrapSize cfg.bootstrap_size_configured →
      (upperQuantileIdx cfg.confidence_level
        (effectiveBootstrapSize cfg.bootstrap_size_configured)).toNat <
          effectiveBootstrapSize cfg.bootstrap_size_configured →
      errorName? (bootstrapMeanCI cfg sample pick) = none) ∧
    (lowerQuantileIdx ((19 : ℚ)/20) 9999).toNat = 250 ∧
    (upperQuantileIdx ((19 : ℚ)/20) 9999).toNat = 9750 := by
  refine ⟨fun cl n h0 h1 hn =>
      ⟨lowerQuantileIdx_lt h0 h1 hn, upperQuantileIdx_le h1⟩,
    ?_, by norm_num [lowerQuantileIdx]; decide,
    by norm_num [upperQuantileIdx]; decide⟩
  intro cfg sample pick h0 h1 hn hup
  exact bootstrapMeanCI_ok_of_idx (lowerQuantileIdx_lt h0 h1 hn) hup

/-- Claim C10 (witness): the amended theorem applied at the small
configuration (confidence 1/5, effective size 2): both indices valid,
and the interval computation raises nothing. -/
theorem c10_witness :
    ((lowerQuantileIdx ((1 : ℚ)/5) 2).toNat < 2 ∧
      (upperQuantileIdx ((1 : ℚ)/5) 2).toNat ≤ 2) ∧
    errorName? (bootstrapMeanCI cfgSmall [2] pickZero) = none := by
  refine ⟨c10_quantile_index_bounds.1 (1/5) 2 (by norm_num) (by norm_num)
      (by norm_num),
    c10_quantile_index_bounds.2.1 cfgSmall [2] pickZero (by norm_num [cfgSmall])
      (by norm_num [cfgSmall]) (by decide) ?_⟩
  norm_num [cfgSmall, effectiveBootstrapSize, upperQuantileIdx]
